import Mathlib

/-!
Verification of the Turing machine simulator (`turing_machine.py`).

The embedding below is a shallow translation of the source module:

* `TuringMachine` mirrors the fields stored by `TuringMachine.__init__`
  (the accept state is kept as a field; the source stores it only inside
  the `states_to_actions` dict, which `classify` models).
* The transition table is a Python dict from `(state, symbol)` pairs to
  `(state, symbol, direction)` triples; it is modelled as an association
  list with `dictGet` implementing dict lookup (later entries win, the
  dict's last-write-wins rule for duplicate keys).
* States, symbols and directions are Python strings, modelled as `String`.
* `run` is a generator; its loop state is modelled by `GenState` and one
  resumption by `genStep`.  `GenState.crashed` models an `AssertionError`
  escaping the generator (the `assert direction in 'LR'` line).
* `list(islice(run(input), limit))` is modelled by `pull`/`runIslice`,
  returning `Except String _` so that the exceptions the source can raise
  (`AssertionError` from the generator, `IndexError` from `[-1]` on an
  empty list) are explicit values.
* `acceptsE`/`rejectsE` model `accepts`/`rejects`; Python's three-valued
  result (`True`/`False`/`None`) is `Option Bool`.
-/

/-- A transition table: the Python dict from `(state, symbol)` to
`(state, symbol, direction)`. -/
abbrev Table := List ((String × String) × (String × String × String))

/-- Dict lookup on the association list.  Later entries shadow earlier
ones, matching the last-write-wins behavior of a Python dict literal with
duplicate keys. -/
def dictGet (t : Table) (k : String × String) : Option (String × String × String) :=
  match t with
  | [] => none
  | (k2, v) :: rest =>
    match dictGet rest k with
    | some v2 => some v2
    | none => if k2 = k then some v else none

/-- The machine object: the fields assigned in `TuringMachine.__init__`. -/
structure TuringMachine where
  transitions : Table
  start_state : String
  accept_state : String
  reject_state : String
  blank_symbol : String
deriving DecidableEq

/-- `TuringMachine.__init__`: plain field assignment with the source's
default arguments; there is no validation and no failure path. -/
def TuringMachine.init (transitions : Table) (start_state : String := "q0")
    (accept_state : String := "qa") (reject_state : String := "qr")
    (blank_symbol : String := "") : TuringMachine :=
  ⟨transitions, start_state, accept_state, reject_state, blank_symbol⟩

/-- One configuration snapshot, the dict yielded by `run` at every step. -/
structure Config where
  state : String
  left_hand_side : List String
  symbol : String
  right_hand_side : List String
deriving DecidableEq

/-- `self.states_to_actions.get(state)`: the dict is built as
`{accept_state: 'Accept', reject_state: 'Reject'}`, so when the two
states coincide the later write (`'Reject'`) wins; testing the reject
state first reproduces that. -/
def classify (M : TuringMachine) (s : String) : Option String :=
  if s = M.reject_state then some "Reject"
  else if s = M.accept_state then some "Accept"
  else none

/-- `self.transitions.get((state, symbol), (self.reject_state, symbol, 'R'))`:
table lookup with the default transition to the reject state. -/
def resolve (M : TuringMachine) (s sym : String) : String × String × String :=
  match dictGet M.transitions (s, sym) with
  | some t => t
  | none => (M.reject_state, sym, "R")

/-- Python's `direction in 'LR'` is substring containment; the substrings
of `"LR"` are exactly these four strings. -/
def inLR (d : String) : Bool :=
  d = "" || d = "L" || d = "R" || d = "LR"

/-- The tape update of one loop iteration of `run`, after the transition
has been resolved: the `if direction == 'R' / elif left_hand_side / else`
block.  `none` models the `AssertionError` raised when the direction is
not a substring of `'LR'` at the leftmost cell.  Note that in every
branch the variables `state` and `symbol` have already been rebound to
the resolved triple before the tape is touched. -/
def moveStep (M : TuringMachine) (c : Config) : Option Config :=
  match resolve M c.state c.symbol with
  | (state2, symbol2, dir) =>
    if dir = "R" then
      match c.right_hand_side with
      | s :: rest =>
        some { state := state2, left_hand_side := symbol2 :: c.left_hand_side,
               symbol := s, right_hand_side := rest }
      | [] =>
        some { state := state2, left_hand_side := symbol2 :: c.left_hand_side,
               symbol := M.blank_symbol, right_hand_side := [] }
    else
      match c.left_hand_side with
      | s :: rest =>
        some { state := state2, left_hand_side := rest,
               symbol := s, right_hand_side := symbol2 :: c.right_hand_side }
      | [] =>
        if inLR dir then
          some { state := state2, left_hand_side := [],
                 symbol := symbol2, right_hand_side := c.right_hand_side }
        else none

/-- The tape seeding at the top of `run`: `left = [blank]`; an empty
input is replaced by `[blank]`; the head takes the first input symbol and
the rest becomes the right-hand side. -/
def initConfig (M : TuringMachine) (input : List String) : Config :=
  match input with
  | [] => { state := M.start_state, left_hand_side := [M.blank_symbol],
            symbol := M.blank_symbol, right_hand_side := [] }
  | s :: rest => { state := M.start_state, left_hand_side := [M.blank_symbol],
                   symbol := s, right_hand_side := rest }

/-- The generator's status between resumptions: still running with a
current configuration, finished (it executed `break` after yielding a
halting observation), or terminated by an uncaught `AssertionError`. -/
inductive GenState where
  | active : Config → GenState
  | halted : GenState
  | crashed : GenState
deriving DecidableEq

/-- One resumption of the generator after a yield: stop if the yielded
action was not `None`, otherwise resolve the transition and move. -/
def genStep (M : TuringMachine) : GenState → GenState
  | GenState.active c =>
    if (classify M c.state).isSome then GenState.halted
    else
      match moveStep M c with
      | some c2 => GenState.active c2
      | none => GenState.crashed
  | s => s

/-- The generator's status just before its `n`-th yield. -/
def genState (M : TuringMachine) (input : List String) : Nat → GenState
  | 0 => GenState.active (initConfig M input)
  | n + 1 => genStep M (genState M input n)

/-- The `(action, configuration)` pair yielded at step `n`, when the
generator is still running then. -/
def observation (M : TuringMachine) (input : List String) (n : Nat) :
    Option (Option String × Config) :=
  match genState M input n with
  | GenState.active c => some (classify M c.state, c)
  | _ => none

/-- Cons an observation onto the result of pulling the remaining steps,
propagating an exception. -/
def pushObs (M : TuringMachine) (c : Config)
    (r : Except String (List (Option String × Config))) :
    Except String (List (Option String × Config)) :=
  match r with
  | Except.ok l => Except.ok ((classify M c.state, c) :: l)
  | Except.error e => Except.error e

/-- `list(islice(gen, n))` for a generator in status `s`: pull at most
`n` observations; a pull that resumes a crashed generator propagates the
`AssertionError`. -/
def pull (M : TuringMachine) (s : GenState) : Nat →
    Except String (List (Option String × Config))
  | 0 => Except.ok []
  | n + 1 =>
    match s with
    | GenState.halted => Except.ok []
    | GenState.crashed => Except.error "AssertionError"
    | GenState.active c => pushObs M c (pull M (genStep M (GenState.active c)) n)

/-- `list(islice(self.run(input_), step_limit))`. -/
def runIslice (M : TuringMachine) (input : List String) (limit : Nat) :
    Except String (List (Option String × Config)) :=
  pull M (GenState.active (initConfig M input)) limit

/-- `TuringMachine.accepts`: take the action of the last pulled
observation (`[-1][0]`, raising `IndexError` on an empty list); return
`action == 'Accept'` when the action is not `None`, and `None`
(`Option.none`) when the step limit was reached. -/
def acceptsE (M : TuringMachine) (input : List String) (limit : Nat := 100) :
    Except String (Option Bool) :=
  match runIslice M input limit with
  | Except.error e => Except.error e
  | Except.ok l =>
    match l.getLast? with
    | none => Except.error "IndexError"
    | some ob =>
      match ob.1 with
      | some a => Except.ok (some (a == "Accept"))
      | none => Except.ok none

/-- `TuringMachine.rejects`: delegate to `accepts` and negate a
non-`None` result. -/
def rejectsE (M : TuringMachine) (input : List String) (limit : Nat := 100) :
    Except String (Option Bool) :=
  match acceptsE M input limit with
  | Except.error e => Except.error e
  | Except.ok (some b) => Except.ok (some (!b))
  | Except.ok none => Except.ok none

/-- A Python string used as an input: iterating it yields its characters
as one-character strings. -/
def strInput (s : String) : List String :=
  s.toList.map fun ch => String.mk [ch]

/-- The `w#w` transition table from the test fixture and `w_hash_w.py`. -/
def whwTable : Table :=
  [ (("q0", "#"), ("End", "#", "R")),
    (("End", ""), ("qa", "", "R")),
    (("q0", "0"), ("FindDelimiter0", "X", "R")),
    (("FindDelimiter0", "#"), ("Check0", "#", "R")),
    (("Check0", "0"), ("FindLeftmost", "X", "L")),
    (("q0", "1"), ("FindDelimiter1", "X", "R")),
    (("FindDelimiter1", "#"), ("Check1", "#", "R")),
    (("Check1", "1"), ("FindLeftmost", "X", "L")),
    (("FindLeftmost", "0"), ("FindLeftmost", "0", "L")),
    (("FindLeftmost", "1"), ("FindLeftmost", "1", "L")),
    (("FindLeftmost", "X"), ("FindLeftmost", "X", "L")),
    (("FindLeftmost", "#"), ("FindLeftmost", "#", "L")),
    (("FindLeftmost", ""), ("FindNext", "", "R")),
    (("FindNext", "X"), ("FindNext", "X", "R")),
    (("FindNext", "0"), ("FindDelimiter0", "X", "R")),
    (("FindNext", "1"), ("FindDelimiter1", "X", "R")),
    (("FindNext", "#"), ("End", "#", "R")),
    (("FindDelimiter0", "0"), ("FindDelimiter0", "0", "R")),
    (("FindDelimiter0", "1"), ("FindDelimiter0", "1", "R")),
    (("FindDelimiter1", "0"), ("FindDelimiter1", "0", "R")),
    (("FindDelimiter1", "1"), ("FindDelimiter1", "1", "R")),
    (("Check0", "X"), ("Check0", "X", "R")),
    (("Check1", "X"), ("Check1", "X", "R")),
    (("End", "X"), ("End", "X", "R")) ]

/-- The machine built from the `w#w` table with the constructor's
default states and blank symbol. -/
def whw : TuringMachine := TuringMachine.init whwTable

instance {ε α : Type} [DecidableEq ε] [DecidableEq α] : DecidableEq (Except ε α) :=
  fun a b =>
    match a, b with
    | Except.ok x, Except.ok y =>
      if h : x = y then isTrue (by rw [h]) else isFalse (by simp [h])
    | Except.error x, Except.error y =>
      if h : x = y then isTrue (by rw [h]) else isFalse (by simp [h])
    | Except.ok _, Except.error _ => isFalse (by simp)
    | Except.error _, Except.ok _ => isFalse (by simp)

/-- The machine whose only transition is `(q0, blank) -> (q0, blank, 'L')`,
with the constructor's default states and blank symbol. -/
def Mleft : TuringMachine := TuringMachine.init [(("q0", ""), ("q0", "", "L"))]

/-- A table holding the malformed direction `'X'`. -/
def badTable : Table := [(("q0", ""), ("q0", "", "X"))]

/-- The machine built, without any complaint, from the malformed table. -/
def Mbad : TuringMachine := TuringMachine.init badTable

/-- The snapshot dict yielded at step `n` as it reads after `m` further
steps have been taken.  In the source, `run` yields a fresh dict each
step, but the dict's `left_hand_side` and `right_hand_side` entries are
the generator's own two list objects, which later steps mutate in place
with `insert`/`pop`; the `state` and `symbol` entries are immutable
strings captured at yield time.  Hence re-examining the step-`n` dict
later shows step-`n`'s state and symbol but the current contents of the
two lists.  Defined when the generator is still running at both times. -/
def snapshotLater (M : TuringMachine) (input : List String) (n m : Nat) :
    Option Config :=
  match genState M input n, genState M input (n + m) with
  | GenState.active c, GenState.active c2 =>
    some { state := c.state, symbol := c.symbol,
           left_hand_side := c2.left_hand_side,
           right_hand_side := c2.right_hand_side }
  | _, _ => none

/-- Pulling `n` observations from the generator, written as a relation:
exactly the clauses of the engine's loop protocol (yield, stop after a
halting action, propagate the assertion failure).  Determinism of the
engine is the statement that this relation is functional. -/
inductive PullRel (M : TuringMachine) : GenState → Nat →
    Except String (List (Option String × Config)) → Prop where
  | done (s : GenState) : PullRel M s 0 (Except.ok [])
  | halt (n : Nat) : PullRel M GenState.halted (n + 1) (Except.ok [])
  | crash (n : Nat) :
      PullRel M GenState.crashed (n + 1) (Except.error "AssertionError")
  | next (c : Config) (n : Nat)
      (r : Except String (List (Option String × Config))) :
      PullRel M (genStep M (GenState.active c)) n r →
      PullRel M (GenState.active c) (n + 1) (pushObs M c r)

/-- Every direction stored in the table is the source's `'L'` or `'R'`. -/
def validDirections (M : TuringMachine) : Prop :=
  ∀ e ∈ M.transitions, e.2.2.2 = "L" ∨ e.2.2.2 = "R"

instance (M : TuringMachine) : Decidable (validDirections M) := by
  unfold validDirections; infer_instance

theorem dictGet_mem (t : Table) (k : String × String) (v : String × String × String)
    (h : dictGet t k = some v) : (k, v) ∈ t := by
  induction t with
  | nil => simp [dictGet] at h
  | cons e rest ih =>
    obtain ⟨k2, v2⟩ := e
    unfold dictGet at h
    cases hr : dictGet rest k with
    | some v3 =>
      rw [hr] at h
      cases h
      exact List.mem_cons_of_mem _ (ih hr)
    | none =>
      rw [hr] at h
      by_cases hk : k2 = k
      · rw [if_pos hk] at h
        cases h
        rw [hk]
        exact List.mem_cons_self _ _
      · rw [if_neg hk] at h
        exact Option.noConfusion h

theorem resolve_dir (M : TuringMachine) (s sym : String) (hv : validDirections M) :
    (resolve M s sym).2.2 = "L" ∨ (resolve M s sym).2.2 = "R" := by
  unfold resolve
  cases h : dictGet M.transitions (s, sym) with
  | none => right; rfl
  | some t => exact hv ((s, sym), t) (dictGet_mem _ _ _ h)

theorem moveStep_isSome (M : TuringMachine) (c : Config) (hv : validDirections M) :
    (moveStep M c).isSome := by
  have hdir := resolve_dir M c.state c.symbol hv
  unfold moveStep
  rcases hd : resolve M c.state c.symbol with ⟨s2, y2, d⟩
  rw [hd] at hdir
  simp only at hdir
  by_cases hR : d = "R"
  · simp only [hR, if_pos rfl]
    cases c.right_hand_side <;> simp
  · simp only [if_neg hR]
    cases c.left_hand_side with
    | cons a l => simp
    | nil =>
      rcases hdir with hL | hR2
      · simp [hL, inLR]
      · exact absurd hR2 hR

theorem genStep_ne_crashed (M : TuringMachine) (hv : validDirections M) (s : GenState)
    (hs : s ≠ GenState.crashed) : genStep M s ≠ GenState.crashed := by
  cases s with
  | halted => simp [genStep]
  | crashed => exact absurd rfl hs
  | active c =>
    unfold genStep
    by_cases hc : (classify M c.state).isSome
    · simp [hc]
    · have hm := moveStep_isSome M c hv
      cases hmv : moveStep M c with
      | some c2 => simp [hc, hmv]
      | none => rw [hmv] at hm; simp at hm

theorem pull_ok (M : TuringMachine) (hv : validDirections M) :
    ∀ (n : Nat) (s : GenState), s ≠ GenState.crashed →
      ∃ l, pull M s n = Except.ok l ∧ l.length ≤ n := by
  intro n
  induction n with
  | zero => exact fun s _ => ⟨[], rfl, Nat.le_refl 0⟩
  | succ n ih =>
    intro s hs
    cases s with
    | halted => exact ⟨[], rfl, Nat.zero_le _⟩
    | crashed => exact absurd rfl hs
    | active c =>
      obtain ⟨l, hl, hlen⟩ := ih (genStep M (GenState.active c))
        (genStep_ne_crashed M hv _ (fun h => GenState.noConfusion h))
      refine ⟨(classify M c.state, c) :: l, ?_, Nat.succ_le_succ hlen⟩
      simp [pull, pushObs, hl]

theorem acceptsE_spec (M : TuringMachine) (input : List String) (n : Nat)
    (hn : 1 ≤ n) (hv : validDirections M) :
    ∃ obs last, runIslice M input n = Except.ok obs ∧ obs.length ≤ n ∧
      obs.getLast? = some last ∧
      acceptsE M input n = Except.ok (Option.map (fun a => a == "Accept") last.1) := by
  obtain ⟨m, rfl⟩ : ∃ m, n = m + 1 := ⟨n - 1, (Nat.succ_pred_eq_of_pos hn).symm⟩
  obtain ⟨l, hl, hlen⟩ := pull_ok M hv m (genStep M (GenState.active (initConfig M input)))
    (genStep_ne_crashed M hv _ (fun h => GenState.noConfusion h))
  have hrun : runIslice M input (m + 1) =
      Except.ok ((classify M (initConfig M input).state, initConfig M input) :: l) := by
    simp [runIslice, pull, pushObs, hl]
  cases hlast : ((classify M (initConfig M input).state, initConfig M input) :: l).getLast? with
  | none =>
    rw [List.getLast?_eq_none_iff] at hlast
    exact absurd hlast (List.cons_ne_nil _ _)
  | some last =>
    refine ⟨_, last, hrun, by simpa using hlen, hlast, ?_⟩
    obtain ⟨act, cfg⟩ := last
    unfold acceptsE
    rw [hrun]
    simp only
    rw [hlast]
    cases act <;> simp

/-- C1: for every machine whose table stores only the directions `'L'` and
`'R'`, every input and every step limit `n ≥ 1`, `accepts` pulls at most
`n` observations from the run generator, and its three-valued result is
determined by the action of the last observation pulled: `some true`
(Accepted) when that action is `'Accept'`, `some false` (Rejected) when it
is `'Reject'`, and `none` (Undetermined) when it is still `None` because
the limit was reached before halting; the default step limit is 100. -/
theorem accepts_bounded_last_action (M : TuringMachine) (input : List String)
    (n : Nat) (hn : 1 ≤ n) (hv : validDirections M) :
    ∃ obs last, runIslice M input n = Except.ok obs ∧ obs.length ≤ n ∧
      obs.getLast? = some last ∧
      acceptsE M input n = Except.ok (Option.map (fun a => a == "Accept") last.1) ∧
      (last.1 = some "Accept" → acceptsE M input n = Except.ok (some true)) ∧
      (last.1 = some "Reject" → acceptsE M input n = Except.ok (some false)) ∧
      (last.1 = none → acceptsE M input n = Except.ok none) ∧
      acceptsE M input = acceptsE M input 100 := by
  obtain ⟨obs, last, h1, h2, h3, h4⟩ := acceptsE_spec M input n hn hv
  refine ⟨obs, last, h1, h2, h3, h4, ?_, ?_, ?_, rfl⟩
  · intro h; rw [h] at h4; exact h4.trans (by decide)
  · intro h; rw [h] at h4; exact h4.trans (by decide)
  · intro h; rw [h] at h4; exact h4.trans (by decide)

/-- Witness for `accepts_bounded_last_action`: the `w#w` machine on the
input `'#'` with step limit 5. -/
theorem accepts_bounded_last_action_witness :
    ∃ obs last, runIslice whw (strInput "#") 5 = Except.ok obs ∧ obs.length ≤ 5 ∧
      obs.getLast? = some last ∧
      acceptsE whw (strInput "#") 5 =
        Except.ok (Option.map (fun a => a == "Accept") last.1) ∧
      (last.1 = some "Accept" → acceptsE whw (strInput "#") 5 = Except.ok (some true)) ∧
      (last.1 = some "Reject" → acceptsE whw (strInput "#") 5 = Except.ok (some false)) ∧
      (last.1 = none → acceptsE whw (strInput "#") 5 = Except.ok none) ∧
      acceptsE whw (strInput "#") = acceptsE whw (strInput "#") 100 :=
  accepts_bounded_last_action whw (strInput "#") 5 (by decide) (by decide)

/-- C2: a `(state, symbol)` pair absent from the table resolves to
`(reject_state, symbol, 'R')`: the symbol under the head is written back
unchanged and the head moves right, and the step yields a configuration
(no exception is raised for the unknown pair). -/
theorem missing_transition_defaults_reject (M : TuringMachine) (s sym : String)
    (l r : List String) (h : dictGet M.transitions (s, sym) = none) :
    resolve M s sym = (M.reject_state, sym, "R") ∧
    moveStep M ⟨s, l, sym, r⟩ =
      some ⟨M.reject_state, sym :: l, r.headD M.blank_symbol, r.tail⟩ := by
  have hres : resolve M s sym = (M.reject_state, sym, "R") := by
    unfold resolve; rw [h]
  refine ⟨hres, ?_⟩
  show (match resolve M s sym with
    | (state2, symbol2, dir) =>
      if dir = "R" then
        match r with
        | a :: rest => some (Config.mk state2 (symbol2 :: l) a rest)
        | [] => some (Config.mk state2 (symbol2 :: l) M.blank_symbol [])
      else
        match l with
        | a :: rest => some (Config.mk state2 rest a (symbol2 :: r))
        | [] =>
          if inLR dir then some (Config.mk state2 [] symbol2 r)
          else none) = _
  rw [hres]
  cases r <;> simp

/-- Witness for `missing_transition_defaults_reject`: the `w#w` machine at
a pair not in its table. -/
theorem missing_transition_defaults_reject_witness :
    resolve whw "zz" "y" = ("qr", "y", "R") ∧
    moveStep whw ⟨"zz", [], "y", []⟩ = some ⟨"qr", ["y"], "", []⟩ :=
  missing_transition_defaults_reject whw "zz" "y" [] [] (by decide)

/-- C5: `rejects` never agrees with `accepts` on `true`; it is `true`
exactly when `accepts` is Rejected, `false` exactly when `accepts` is
Accepted, and it propagates the Undetermined `None` unchanged. -/
theorem rejects_complements_accepts (M : TuringMachine) (input : List String)
    (limit : Nat) :
    ¬(acceptsE M input limit = Except.ok (some true) ∧
      rejectsE M input limit = Except.ok (some true)) ∧
    (rejectsE M input limit = Except.ok (some true) ↔
      acceptsE M input limit = Except.ok (some false)) ∧
    (rejectsE M input limit = Except.ok (some false) ↔
      acceptsE M input limit = Except.ok (some true)) ∧
    (rejectsE M input limit = Except.ok none ↔
      acceptsE M input limit = Except.ok none) := by
  unfold rejectsE
  cases h : acceptsE M input limit with
  | error e => simp
  | ok o =>
    cases o with
    | none => simp
    | some b => cases b <;> simp

/-- C10: with a positive step limit (and a table whose directions are all
`'L'`/`'R'`) `accepts` returns a defined result, because the generator
always yields at least one observation; with step limit 0 the pulled list
is empty and both `accepts` and `rejects` fail with `IndexError`. -/
theorem accepts_defined_iff_positive_limit (M : TuringMachine) (input : List String)
    (n : Nat) (hn : 1 ≤ n) (hv : validDirections M) :
    (∃ r, acceptsE M input n = Except.ok r) ∧
    acceptsE M input 0 = Except.error "IndexError" ∧
    rejectsE M input 0 = Except.error "IndexError" := by
  obtain ⟨obs, last, h1, h2, h3, h4⟩ := acceptsE_spec M input n hn hv
  exact ⟨⟨_, h4⟩, rfl, rfl⟩

/-- Witness for `accepts_defined_iff_positive_limit` at the `w#w` machine
on the empty input with step limit 1. -/
theorem accepts_defined_iff_positive_limit_witness :
    (∃ r, acceptsE whw [] 1 = Except.ok r) ∧
    acceptsE whw [] 0 = Except.error "IndexError" ∧
    rejectsE whw [] 0 = Except.error "IndexError" :=
  accepts_defined_iff_positive_limit whw [] 1 (by decide) (by decide)

theorem Mleft_genState (n : Nat) (h : 1 ≤ n) :
    genState Mleft [] n = GenState.active ⟨"q0", [], "", [""]⟩ := by
  induction n with
  | zero => exact absurd h (by decide)
  | succ k ih =>
    cases k with
    | zero => decide
    | succ j =>
      have hk : genState Mleft [] (j + 1) = GenState.active ⟨"q0", [], "", [""]⟩ :=
        ih (Nat.succ_le_succ (Nat.zero_le j))
      show genStep Mleft (genState Mleft [] (j + 1)) = _
      rw [hk]
      decide

/-- C3: the machine with only `(q0, blank) -> (q0, blank, 'L')` run on
empty input yields, at step 0, the configuration with state `q0`, left
`[blank]`, the blank under the head and an empty right side; every later
step yields state `q0`, empty left, blank under the head and `[blank]` on
the right — once `left` is empty the head never moves left of the origin,
and the left move at the origin is a position no-op, not an error, so
execution continues. -/
theorem left_at_origin_stays_put :
    observation Mleft [] 0 = some (none, ⟨"q0", [""], "", []⟩) ∧
    ∀ n, 1 ≤ n → observation Mleft [] n = some (none, ⟨"q0", [], "", [""]⟩) := by
  refine ⟨by decide, fun n hn => ?_⟩
  unfold observation
  rw [Mleft_genState n hn]
  decide

/-- Witness for `left_at_origin_stays_put` at step 3. -/
theorem left_at_origin_stays_put_witness :
    observation Mleft [] 3 = some (none, ⟨"q0", [], "", [""]⟩) :=
  left_at_origin_stays_put.2 3 (by decide)

/-- C4 counterexample: constructing a machine from a table with the
direction `'X'` does not fail — the table is stored as given — and the
malformed direction then surfaces as a runtime `AssertionError` in the
middle of execution (the crashed generator at step 2), contradicting the
claim that it is detected eagerly at construction time and never surfaces
as a runtime panic. -/
theorem invalid_direction_runtime_crash :
    Mbad.transitions = badTable ∧
    genState Mbad [] 2 = GenState.crashed := by
  exact ⟨rfl, by decide⟩

/-- C4 amended: construction performs no validation — `__init__` stores
every field exactly as given, for any table — and a direction outside
`{'L', 'R'}` is deferred to execution time: while the left-hand side is
non-empty the step treats it as a left move, and at the leftmost cell the
`assert` fails, crashing the run mid-execution. -/
theorem invalid_direction_deferred_to_execution :
    (∀ (t : Table) (s a rj b : String),
      (TuringMachine.init t s a rj b).transitions = t ∧
      (TuringMachine.init t s a rj b).start_state = s ∧
      (TuringMachine.init t s a rj b).accept_state = a ∧
      (TuringMachine.init t s a rj b).reject_state = rj ∧
      (TuringMachine.init t s a rj b).blank_symbol = b) ∧
    genState Mbad [] 1 = GenState.active ⟨"q0", [], "", [""]⟩ ∧
    genState Mbad [] 2 = GenState.crashed := by
  exact ⟨fun t s a rj b => ⟨rfl, rfl, rfl, rfl, rfl⟩, by decide, by decide⟩

/-- C6: for the `w#w` machine, the empty string, the empty list and the
singleton list `['']` all seed the tape with `left = [blank]` and the
blank under the head; `(q0, blank)` is absent from the table, so the first
step defaults to the reject state, and `rejects` is `true` for all three
inputs under the default limit of 100.  (The string `''` and the list `[]`
both embed to the empty symbol list.) -/
theorem empty_inputs_rejected :
    initConfig whw [] = ⟨"q0", [""], "", []⟩ ∧
    initConfig whw [""] = ⟨"q0", [""], "", []⟩ ∧
    strInput "" = [] ∧
    dictGet whw.transitions ("q0", "") = none ∧
    genState whw [] 1 = GenState.active ⟨"qr", ["", ""], "", []⟩ ∧
    rejectsE whw [] 100 = Except.ok (some true) ∧
    rejectsE whw [""] 100 = Except.ok (some true) := by
  exact ⟨by decide, by decide, rfl, by decide, by decide, by decide, by decide⟩

set_option maxRecDepth 100000 in
/-- C7: the `w#w` machine accepts `'11110011001010#11110011001010'` with
step limit 1000, and the same call with step limit 2 is Undetermined
(`None`). -/
theorem whw_accepts_example :
    acceptsE whw (strInput "11110011001010#11110011001010") 1000 =
      Except.ok (some true) ∧
    acceptsE whw (strInput "11110011001010#11110011001010") 2 =
      Except.ok none := by
  exact ⟨by decide, by decide⟩

/-- C8 counterexample: for the left-moving machine on empty input, the
snapshot yielded at step 0 reads `{q0, [blank], blank, []}` when produced,
but after one more step the same dict reads `{q0, [], blank, [blank]}` —
the engine mutated the lists inside a snapshot it had already handed to
the caller. -/
theorem snapshot_mutated_after_yield :
    observation Mleft [] 0 = some (none, ⟨"q0", [""], "", []⟩) ∧
    snapshotLater Mleft [] 0 1 = some ⟨"q0", [], "", [""]⟩ ∧
    snapshotLater Mleft [] 0 1 ≠ some ⟨"q0", [""], "", []⟩ := by
  exact ⟨by decide, by decide, by decide⟩

/-- C8 amended: only the `state` and `symbol` entries of a yielded
snapshot are stable; the `left_hand_side` and `right_hand_side` entries
alias the engine's live tape and reflect every later step's mutation, so
a snapshot is only guaranteed intact until the next observation is
pulled. -/
theorem snapshot_state_symbol_stable (M : TuringMachine) (input : List String)
    (n m : Nat) (c d : Config) (hc : genState M input n = GenState.active c)
    (hd : snapshotLater M input n m = some d) :
    d.state = c.state ∧ d.symbol = c.symbol ∧
    (∀ c2, genState M input (n + m) = GenState.active c2 →
      d.left_hand_side = c2.left_hand_side ∧
      d.right_hand_side = c2.right_hand_side) := by
  unfold snapshotLater at hd
  rw [hc] at hd
  cases h2 : genState M input (n + m) with
  | active c2 =>
    rw [h2] at hd
    simp only [Option.some.injEq] at hd
    subst hd
    exact ⟨rfl, rfl, fun c3 h3 => by
      cases h3
      exact ⟨rfl, rfl⟩⟩
  | halted => rw [h2] at hd; exact Option.noConfusion hd
  | crashed => rw [h2] at hd; exact Option.noConfusion hd

/-- Witness for `snapshot_state_symbol_stable`: the left-moving machine,
snapshot of step 0 re-read after one step. -/
theorem snapshot_state_symbol_stable_witness :
    (⟨"q0", [], "", [""]⟩ : Config).state = (⟨"q0", [""], "", []⟩ : Config).state ∧
    (⟨"q0", [], "", [""]⟩ : Config).symbol = (⟨"q0", [""], "", []⟩ : Config).symbol :=
  ⟨(snapshot_state_symbol_stable Mleft [] 0 1 ⟨"q0", [""], "", []⟩ ⟨"q0", [], "", [""]⟩
      (by decide) (by decide)).1,
    (snapshot_state_symbol_stable Mleft [] 0 1 ⟨"q0", [""], "", []⟩ ⟨"q0", [], "", [""]⟩
      (by decide) (by decide)).2.1⟩

theorem pullRel_pull (M : TuringMachine) : ∀ (n : Nat) (s : GenState),
    PullRel M s n (pull M s n) := by
  intro n
  induction n with
  | zero => intro s; exact PullRel.done s
  | succ n ih =>
    intro s
    cases s with
    | halted => exact PullRel.halt n
    | crashed => exact PullRel.crash n
    | active c => exact PullRel.next c n _ (ih _)

theorem pullRel_det (M : TuringMachine) {s : GenState} {n : Nat}
    {r1 r2 : Except String (List (Option String × Config))}
    (h1 : PullRel M s n r1) (h2 : PullRel M s n r2) : r1 = r2 := by
  induction h1 generalizing r2 with
  | done s => cases h2; rfl
  | halt n => cases h2; rfl
  | crash n => cases h2; rfl
  | next c n r hr ih =>
    cases h2 with
    | next _ _ r3 hr3 => rw [ih hr3]

/-- C9: the engine is deterministic — any two observation sequences that
the run protocol can produce for the same machine, the same input and the
same step budget are identical, with the same `(action, configuration)`
pair at every step. -/
theorem run_deterministic (M : TuringMachine) (input : List String) (n : Nat)
    (r1 r2 : Except String (List (Option String × Config)))
    (h1 : PullRel M (GenState.active (initConfig M input)) n r1)
    (h2 : PullRel M (GenState.active (initConfig M input)) n r2) : r1 = r2 :=
  pullRel_det M h1 h2

/-- Witness for `run_deterministic`: the `w#w` machine on empty input with
budget 2; the concrete two-observation sequence is the unique behavior. -/
theorem run_deterministic_witness :
    Except.ok [((none : Option String), (⟨"q0", [""], "", []⟩ : Config)),
      (some "Reject", ⟨"qr", ["", ""], "", []⟩)] = runIslice whw [] 2 := by
  have hpull : pull whw (GenState.active (initConfig whw [])) 2 =
      Except.ok [((none : Option String), (⟨"q0", [""], "", []⟩ : Config)),
        (some "Reject", ⟨"qr", ["", ""], "", []⟩)] := by decide
  exact run_deterministic whw [] 2 _ _ (hpull ▸ pullRel_pull whw 2 _)
    (pullRel_pull whw 2 _)
